import Mathlib

/-!
Verification of the Spock multi-node workflow scripts
(`src/spock/zodan.py` and `src/spock/cross_nodes.py`).

Strings are modelled as `List Char`.  Each definition is a direct
translation of the corresponding Python source: the step executors of
the two scripts, the placeholder substitution over captured step
outputs, the captured-value extraction from command output, and the
workflow builders.  External command execution (`execute_sql`, which
shells out to `psql`) is modelled as an abstract dispatcher argument
returning an exit code together with stdout and stderr text.
-/

set_option maxRecDepth 8000

/-- Single-quote character, used by the scripts when embedding values in SQL. -/
def sqc : Char := '\x27'

/-- Whitespace recognised by Python `str.strip`. -/
def pySpace (c : Char) : Bool :=
  c = ' ' || c = '\t' || c = '\n' || c = '\r' || c = '\x0b' || c = '\x0c'

/-- Python `str.strip`: drop leading and trailing whitespace. -/
def pyStrip (s : List Char) : List Char :=
  ((s.dropWhile pySpace).reverse.dropWhile pySpace).reverse

/-- Python `str.splitlines`, modelled as splitting on the newline character. -/
def splitLines (s : List Char) : List (List Char) :=
  s.splitOn '\n'

/-- Worker for `replaceAll`.  The fuel argument only makes the recursion
structural: every recursive call consumes at least one character of the
subject, so fuel initialized to the subject length never runs out. -/
def replaceAllFuel (pat rep : List Char) : Nat → List Char → List Char
  | _, [] => []
  | 0, s => s
  | fuel + 1, c :: rest =>
    if pat ≠ [] ∧ pat.isPrefixOf (c :: rest) then
      rep ++ replaceAllFuel pat rep fuel ((c :: rest).drop pat.length)
    else
      c :: replaceAllFuel pat rep fuel rest

/-- Python `str.replace pat rep`: replace every non-overlapping occurrence of
`pat` left to right (for the non-degenerate case of a non-empty pattern). -/
def replaceAll (pat rep s : List Char) : List Char :=
  replaceAllFuel pat rep s.length s

/-- Decidable substring test used to talk about references inside a command. -/
def containsSub (pat : List Char) : List Char → Bool
  | [] => pat.isEmpty
  | c :: rest => pat.isPrefixOf (c :: rest) || containsSub pat rest

/-- Length of the decimal representation of a step key, Python `len(str(k))`. -/
def keyLen (k : Nat) : Nat := (Nat.repr k).length

/-- Insert a captured output in front of the first entry whose key has a
decimal representation no longer than its own (stable descending insertion). -/
def insertByLen (p : Nat × List Char) : List (Nat × List Char) → List (Nat × List Char)
  | [] => [p]
  | q :: rest =>
    if keyLen q.1 ≤ keyLen p.1 then p :: q :: rest else q :: insertByLen p rest

/-- Python `sorted(step_outputs.keys(), key=lambda x: -len(str(x)))`: a stable
sort of the captured outputs by descending decimal length of their keys. -/
def sortByLenDesc : List (Nat × List Char) → List (Nat × List Char)
  | [] => []
  | p :: rest => insertByLen p (sortByLenDesc rest)

/-- Placeholder text for a step key, Python `f"$\x7bkey\x7d"`. -/
def placeholder (k : Nat) : List Char := '$' :: (Nat.repr k).data

/-- Placeholder substitution of `zodan.execute_steps`: for each captured
output, keys ordered by descending decimal length, replace the key's
placeholder in the command by the captured value. -/
def subst (outs : List (Nat × List Char)) (sql : List Char) : List Char :=
  (sortByLenDesc outs).foldl (fun s p => replaceAll (placeholder p.1) p.2 s) sql

/-- Filter of `zodan.execute_steps` on a stripped output line: keep a
non-empty line not starting with a parenthesis nor with an echo of the
`sub_create` or `node_create` function names. -/
def lineKeeps (l : List Char) : Bool :=
  !l.isEmpty && !("(".data.isPrefixOf l) &&
    !("sub_create".data.isPrefixOf l) && !("node_create".data.isPrefixOf l)

/-- Scan of `zodan.execute_steps` over `stdout.strip().splitlines()` in
reverse for the last stripped line passing `lineKeeps`; defaults to empty. -/
def extractLine (stdout : List Char) : List Char :=
  ((((splitLines (pyStrip stdout)).reverse).map pyStrip).find? lineKeeps).getD []

/-- Captured value of a successful step in `zodan.execute_steps`: the
extracted line, wrapped in single quotes when it contains a slash. -/
def extractValue (stdout : List Char) : List Char :=
  let e := extractLine stdout
  if '/' ∈ e then sqc :: e ++ [sqc] else e

/-- Endpoint record: a node dictionary of the scripts (`dict.get("source",
False)` is modelled by the `source` field). -/
structure Node where
  name : List Char
  dsn : List Char
  location : List Char
  country : List Char
  source : Bool
deriving DecidableEq

/-- Result of one external dispatch: `subprocess.run` return code together
with captured stdout and stderr. -/
structure DispatchOut where
  rc : Int
  out : List Char
  err : List Char

/-- Abstract command dispatcher `execute_sql(sql, conn_info)`. -/
abbrev Dispatcher := List Char → List Char → DispatchOut

/-- Outcome tag written by `log_step`. -/
inductive Status where
  | ok
  | ignored
  | failed
deriving DecidableEq

/-- One record of the run log (`log_step` call). -/
structure LogEntry where
  stepNum : Nat
  description : List Char
  status : Status
  nodeName : List Char
deriving DecidableEq

/-- Python `str(b).lower()` for a boolean SQL argument. -/
def boolStr (b : Bool) : List Char :=
  if b then "true".data else "false".data

/-- SQL template of `node_create` (identical in both scripts), after the
final `.strip()`. -/
def node_create (nodeName dsn location country : List Char) : List Char :=
  "SELECT spock.node_create(\n        node_name => ".data ++ [sqc] ++ nodeName ++ [sqc] ++
  ",\n        dsn => ".data ++ [sqc] ++ dsn ++ [sqc] ++
  ",\n        location => ".data ++ [sqc] ++ location ++ [sqc] ++
  ",\n        country => ".data ++ [sqc] ++ country ++ [sqc] ++
  "\n    );".data

/-- Default `replication_sets` argument text of `sub_create`. -/
def defaultRepsets : List Char :=
  "[".data ++ [sqc] ++ "default".data ++ [sqc] ++ ", ".data ++ [sqc] ++
  "default_insert_only".data ++ [sqc] ++ ", ".data ++ [sqc] ++ "ddl_sql".data ++ [sqc] ++ "]".data

/-- SQL template of `sub_create` (identical in both scripts), after the
final `.strip()`, with the default replication sets. -/
def sub_create (subName providerDsn : List Char)
    (syncStructure syncData enabled : Bool) : List Char :=
  "SELECT spock.sub_create(\n        subscription_name => ".data ++ [sqc] ++ subName ++ [sqc] ++
  ",\n        provider_dsn => ".data ++ [sqc] ++ providerDsn ++ [sqc] ++
  ",\n        replication_sets => ARRAY".data ++ defaultRepsets ++
  ",\n        synchronize_structure => ".data ++ boolStr syncStructure ++
  ",\n        synchronize_data => ".data ++ boolStr syncData ++
  ",\n        forward_origins => ARRAY[]::text[],\n        apply_delay => ".data ++
  [sqc] ++ "0".data ++ [sqc] ++
  "::interval,\n        force_text_transfer => false,\n        enabled => ".data ++
  boolStr enabled ++ "\n    );".data

/-- SQL template of `repset_create` in `cross_nodes.py`, after `.strip()`. -/
def repset_create (setName : List Char) : List Char :=
  "SELECT spock.repset_create(\n        set_name => ".data ++ [sqc] ++ setName ++ [sqc] ++
  ",\n        replicate_insert => true,\n        replicate_update => true,".data ++
  "\n        replicate_delete => true,\n        replicate_truncate => true\n    );".data

namespace Zodan

/-- Step dictionary of `zodan.py`: description, SQL text, target connection,
the `ignore_error` flag (absent key modelled as `false`) and node name. -/
structure Step where
  description : List Char
  sql : List Char
  connInfo : List Char
  ignoreError : Bool
  nodeName : List Char
deriving DecidableEq

/-- Observable trace of one `zodan.execute_steps` run: the dispatched
(sql, conn) calls in order, the `step_outputs` map as an association list in
insertion order, the log records, and the `sys.exit` message of a fatal
abort (`none` when the run completes). -/
structure RunTrace where
  calls : List (List Char × List Char)
  outputs : List (Nat × List Char)
  logs : List LogEntry
  exitMsg : Option (List Char)
deriving DecidableEq

/-- Message passed to `sys.exit` on a fatal step failure. -/
def failMessage (desc : List Char) : List Char :=
  '\x1b' :: "[91mStep failed: ".data ++ desc ++ ('\x1b' :: "[0m".data)

/-- Loop body of `zodan.execute_steps`, processing the remaining steps from
1-based position `i` with the trace accumulated so far. -/
def execute_steps_from (d : Dispatcher) (i : Nat) (acc : RunTrace) :
    List Step → RunTrace
  | [] => acc
  | st :: rest =>
    let sql := subst acc.outputs st.sql
    let r := d sql st.connInfo
    let calls := acc.calls ++ [(sql, st.connInfo)]
    if r.rc = 0 then
      execute_steps_from d (i + 1)
        { calls := calls
          outputs := acc.outputs ++ [(i, extractValue r.out)]
          logs := acc.logs ++ [⟨i, st.description, Status.ok, st.nodeName⟩]
          exitMsg := acc.exitMsg } rest
    else if st.ignoreError then
      execute_steps_from d (i + 1)
        { calls := calls
          outputs := acc.outputs ++ [(i, [])]
          logs := acc.logs ++ [⟨i, st.description, Status.ignored, st.nodeName⟩]
          exitMsg := acc.exitMsg } rest
    else
      { calls := calls
        outputs := acc.outputs
        logs := acc.logs ++ [⟨i, st.description, Status.failed, st.nodeName⟩]
        exitMsg := some (failMessage st.description) }

/-- `zodan.execute_steps`: run the steps in order from position 1 with an
empty `step_outputs` map. -/
def execute_steps (d : Dispatcher) (steps : List Step) : RunTrace :=
  execute_steps_from d 1 ⟨[], [], [], none⟩ steps

end Zodan

namespace CrossNodes

/-- Step dictionary of `cross_nodes.py` before its `step_num` is attached. -/
structure PreStep where
  description : List Char
  sql : List Char
  connInfo : List Char
  nodeName : List Char
deriving DecidableEq

/-- Step dictionary of `cross_nodes.py`: description, SQL text, target
connection, node name and the running `step_num` counter value. -/
structure Step where
  description : List Char
  sql : List Char
  connInfo : List Char
  nodeName : List Char
  stepNum : Nat
deriving DecidableEq

/-- Attach the running `step_num` counter: the counter is incremented once
per appended step starting from 1, so it equals the 1-based position. -/
def numberSteps (l : List PreStep) : List Step :=
  l.enum.map fun p => ⟨p.2.description, p.2.sql, p.2.connInfo, p.2.nodeName, p.1 + 1⟩

/-- First loop of `cross_node_workflow`: one `node_create` step per node. -/
def createPhase (nodes : List Node) : List PreStep :=
  nodes.map fun n =>
    ⟨"Create spock node ".data ++ n.name,
     node_create n.name n.dsn n.location n.country, n.dsn, n.name⟩

/-- Subscription name `f"sub_\x7bprovider\x7d_\x7bnode\x7d"`. -/
def subName (provider node : Node) : List Char :=
  "sub_".data ++ provider.name ++ "_".data ++ node.name

/-- Subscription step of `cross_node_workflow`: created on `node` (the
subscriber), targeting `provider`. -/
def subStep (node provider : Node) : PreStep :=
  ⟨"Create subscription ".data ++ subName provider node ++ " for ".data ++ node.name ++
     " (".data ++ provider.name ++ "->".data ++ node.name ++ ")".data,
   sub_create (subName provider node) provider.dsn true true true,
   node.dsn, node.name⟩

/-- Second loop of `cross_node_workflow`: for each node (outer loop, the
subscriber) and each provider (inner loop) with a different index, one
subscription step. -/
def subPhase (nodes : List Node) : List PreStep :=
  nodes.enum.flatMap fun ip =>
    nodes.enum.filterMap fun jp =>
      if ip.1 ≠ jp.1 then some (subStep ip.2 jp.2) else none

/-- Third loop of `cross_node_workflow`: one `repset_create` step per node. -/
def repsetPhase (nodes : List Node) : List PreStep :=
  nodes.map fun n =>
    ⟨"Create replication set ".data ++ n.name ++ "r for ".data ++ n.name,
     repset_create (n.name ++ ['r']), n.dsn, n.name⟩

/-- `cross_node_workflow`: node creation, then subscriptions, then
replication sets, with sequential step numbers. -/
def cross_node_workflow (nodes : List Node) : List Step :=
  numberSteps (createPhase nodes ++ subPhase nodes ++ repsetPhase nodes)

/-- Observable trace of one `cross_nodes.execute_steps` run: the dispatched
(sql, conn) calls in order and the log records.  The function records no
outputs, never aborts and returns normally whatever the exit codes are. -/
structure RunTrace where
  calls : List (List Char × List Char)
  logs : List LogEntry
deriving DecidableEq

/-- `cross_nodes.execute_steps`: dispatch every step in order and log OK or
FAILED per step; execution always continues to the next step. -/
def execute_steps (d : Dispatcher) (steps : List Step) : RunTrace :=
  steps.foldl
    (fun acc st =>
      let r := d st.sql st.connInfo
      { calls := acc.calls ++ [(st.sql, st.connInfo)]
        logs := acc.logs ++
          [⟨st.stepNum, st.description,
            if r.rc = 0 then Status.ok else Status.failed, st.nodeName⟩] })
    ⟨[], []⟩

end CrossNodes

namespace Zodan

/-- Timeout constant `APPLY_WORKER_TIMEOUT` of `zodan.py`. -/
def APPLY_WORKER_TIMEOUT : Nat := 1000

/-- Timeout constant `SYNC_EVENT_TIMEOUT` of `zodan.py`. -/
def SYNC_EVENT_TIMEOUT : Nat := 1200000

/-- Trigger step of the synchronization phase of `add_node_workflow`. -/
def syncTriggerStep (n : Node) : Step :=
  ⟨"Trigger a synchronization event on ".data ++ n.name,
   "SELECT spock.sync_event();".data, n.dsn, false, n.name⟩

/-- Wait step of the synchronization phase of `add_node_workflow`; `k` is
`len(steps)` at build time, the 1-based position of the trigger step. -/
def syncWaitStep (newNode n : Node) (k : Nat) : Step :=
  ⟨"Wait for the synchronization event triggered by ".data ++ n.name ++ " to complete".data,
   "CALL spock.wait_for_sync_event(true, ".data ++ [sqc] ++ n.name ++ [sqc] ++
     ", $".data ++ (Nat.repr k).data ++ "::pg_lsn, ".data ++
     (Nat.repr SYNC_EVENT_TIMEOUT).data ++ ");".data,
   newNode.dsn, true, newNode.name⟩

/-- SQL of the final replication-lag polling step of `add_node_workflow`,
after `.strip()`. -/
def lagCheckSql : List Char :=
  "DO $$ \n        DECLARE\n            lag_n1_n3 interval;\n            lag_n2_n3 interval;\n        BEGIN\n            LOOP\n                SELECT now() - commit_timestamp INTO lag_n1_n3\n                FROM spock.lag_tracker\n                WHERE origin_name = ".data ++ [sqc] ++ "n1".data ++ [sqc] ++
  " AND receiver_name = ".data ++ [sqc] ++ "n3".data ++ [sqc] ++
  ";\n\n                SELECT now() - commit_timestamp INTO lag_n2_n3\n                FROM spock.lag_tracker\n                WHERE origin_name = ".data ++ [sqc] ++ "n2".data ++ [sqc] ++
  " AND receiver_name = ".data ++ [sqc] ++ "n3".data ++ [sqc] ++
  ";\n\n                RAISE NOTICE ".data ++ [sqc] ++ "n1 → n3 lag: %, n2 → n3 lag: %".data ++ [sqc] ++
  ",\n                             COALESCE(lag_n1_n3::text, ".data ++ [sqc] ++ "NULL".data ++ [sqc] ++
  "),\n                             COALESCE(lag_n2_n3::text, ".data ++ [sqc] ++ "NULL".data ++ [sqc] ++
  ");\n\n                EXIT WHEN lag_n1_n3 IS NOT NULL AND lag_n2_n3 IS NOT NULL\n                          AND extract(epoch FROM lag_n1_n3) < 59\n                          AND extract(epoch FROM lag_n2_n3) < 59;\n\n                PERFORM pg_sleep(1);\n            END LOOP;\n        END\n        $$;".data

/-- `add_node_workflow` of `zodan.py`, with the module globals `NEW_NODE[0]`
and `NODES` made explicit arguments.  Python list indexing (`NODES[1]`,
`dsn.split(' ')[1]`, `... .split('=')[1]`) raises an `IndexError` when out of
range; this is modelled by the `Option` monad, so `none` is a construction
crash surfaced before any dispatch. -/
def add_node_workflow (newNode : Node) (nodes : List Node) : Option (List Step) := do
  let step1 : Step :=
    ⟨"Create node ".data ++ newNode.name ++ " in the cluster".data,
     node_create newNode.name newNode.dsn newNode.location newNode.country,
     newNode.dsn, false, newNode.name⟩
  let newSubSteps : List Step := nodes.map fun n =>
    ⟨"Create a subscription (sub_".data ++ newNode.name ++ "_".data ++ n.name ++ ")".data,
     sub_create ("sub_".data ++ newNode.name ++ "_".data ++ n.name) newNode.dsn true true true,
     n.dsn, false, n.name⟩
  let waitTarget ← nodes.get? 1
  let waitStep : Step :=
    ⟨"Wait for the apply worker".data,
     "SELECT spock.wait_for_apply_worker($2, ".data ++ (Nat.repr APPLY_WORKER_TIMEOUT).data ++ ");".data,
     waitTarget.dsn, true, waitTarget.name⟩
  let disabledSubSteps : List Step := nodes.map fun n =>
    ⟨"Create Subscription (sub_".data ++ n.name ++ "_".data ++ newNode.name ++ ") [disabled]".data,
     sub_create ("sub_".data ++ n.name ++ "_".data ++ newNode.name) n.dsn false false false,
     newNode.dsn, false, newNode.name⟩
  let slotSteps ← (nodes.filter fun n => !n.source).mapM fun n => do
    let tok ← (newNode.dsn.splitOn ' ').get? 1
    let dbname ← (tok.splitOn '=').get? 1
    let slotName := "spk_".data ++ dbname ++ "_".data ++ n.name ++ "_sub_".data ++
      n.name ++ "_".data ++ newNode.name
    pure (⟨"Create replication slot ".data ++ slotName,
      "SELECT pg_create_logical_replication_slot(".data ++ [sqc] ++ slotName ++ [sqc] ++
        ", ".data ++ [sqc] ++ "spock_output".data ++ [sqc] ++ ");".data,
      newNode.dsn, false, newNode.name⟩ : Step)
  let beforeSync := step1 :: newSubSteps ++ waitStep :: disabledSubSteps ++ slotSteps
  let withSync := nodes.foldl
    (fun acc n =>
      if n.source then
        let acc1 := acc ++ [syncTriggerStep n]
        acc1 ++ [syncWaitStep newNode n acc1.length]
      else acc)
    beforeSync
  let lagStep : Step :=
    ⟨"Check the replication lags between nodes".data, lagCheckSql,
     newNode.dsn, false, newNode.name⟩
  pure (withSync ++ [lagStep])

end Zodan

/-- Endpoint `n1` of the repository's default topology. -/
def n1Node : Node :=
  ⟨"n1".data, "host=127.0.0.1 dbname=pgedge port=5431 user=pgedge password=pgedge".data,
   "Los Angeles".data, "USA".data, false⟩

/-- Endpoint `n2` of the repository's default topology. -/
def n2Node : Node :=
  ⟨"n2".data, "host=127.0.0.1 dbname=pgedge port=5432 user=pgedge password=pgedge".data,
   "Los Angeles".data, "USA".data, false⟩

/-- The new endpoint `n3` (`NEW_NODE[0]` of `zodan.py`). -/
def n3Node : Node :=
  ⟨"n3".data, "host=127.0.0.1 dbname=pgedge port=5433 user=pgedge password=pgedge".data,
   "Los Angeles".data, "USA".data, false⟩

/-- Coarse classification of a step's SQL text by the template it begins
with, used to phrase phase statements about built workflows. -/
inductive StepKind where
  | createNode
  | createSub
  | createRepset
  | other
deriving DecidableEq

/-- Classify a SQL text by the function call it begins with. -/
def classifySql (sql : List Char) : StepKind :=
  if "SELECT spock.node_create(".data.isPrefixOf sql then StepKind.createNode
  else if "SELECT spock.sub_create(".data.isPrefixOf sql then StepKind.createSub
  else if "SELECT spock.repset_create(".data.isPrefixOf sql then StepKind.createRepset
  else StepKind.other

namespace CrossNodes

/-- Forget the attached step number. -/
def forget (s : Step) : PreStep :=
  ⟨s.description, s.sql, s.connInfo, s.nodeName⟩

/-- Modelled from the claim text, for comparison with the code: enumeration
of the ordered pairs (provider, subscriber) of distinct endpoints
provider-major, subscriber-minor - for each provider in input order, all its
subscribers in input order, skipping the provider itself. -/
def providerMajorPairs (nodes : List Node) : List (Node × Node) :=
  nodes.enum.flatMap fun ip =>
    nodes.enum.filterMap fun jp =>
      if ip.1 ≠ jp.1 then some (ip.2, jp.2) else none

/-- Enumeration of the ordered pairs (provider, subscriber) of distinct
endpoints subscriber-major, provider-minor: for each subscriber in input
order, all providers in input order, skipping the subscriber itself. -/
def subscriberMajorPairs (nodes : List Node) : List (Node × Node) :=
  nodes.enum.flatMap fun ip =>
    (nodes.enum.filter fun jp => !(ip.1 == jp.1)).map fun jp => (jp.2, ip.2)

end CrossNodes

/-- Dispatcher succeeding on every call with a fixed slash-free output. -/
def dOk : Dispatcher := fun _ _ => ⟨0, " x \n---\n t\n(1 row)\n".data, []⟩

/-- Dispatcher failing on every call with exit code 1. -/
def dFail : Dispatcher := fun _ _ => ⟨1, [], "boom".data⟩

/-- Dispatcher succeeding with an output that has no extractable line. -/
def dNoData : Dispatcher := fun _ _ => ⟨0, "node_create \n(0 rows)".data, []⟩

/-- Sample non-ignorable step. -/
def sampleStepA : Zodan.Step :=
  ⟨"alpha".data, "SELECT 1;".data, "connA".data, false, "n1".data⟩

/-- Sample non-ignorable step. -/
def sampleStepB : Zodan.Step :=
  ⟨"beta".data, "SELECT 2;".data, "connB".data, false, "n2".data⟩

/-- Sample ignorable step. -/
def sampleStepI : Zodan.Step :=
  ⟨"gamma".data, "SELECT 3;".data, "connC".data, true, "n3".data⟩

/-- Sample cross-wire step; `cross_nodes.py` steps carry no ignore flag. -/
def crossStep1 : CrossNodes.Step :=
  ⟨"one".data, "SELECT 1;".data, "connA".data, "n1".data, 1⟩

/-- Second sample cross-wire step. -/
def crossStep2 : CrossNodes.Step :=
  ⟨"two".data, "SELECT 2;".data, "connB".data, "n2".data, 2⟩

lemma isPrefixOf_append_left (pat l₁ l₂ : List Char) (h : pat.length ≤ l₁.length) :
    pat.isPrefixOf (l₁ ++ l₂) = pat.isPrefixOf l₁ := by
  rw [← Bool.coe_iff_coe, List.isPrefixOf_iff_prefix, List.isPrefixOf_iff_prefix]
  constructor
  · intro hp
    rw [List.prefix_iff_eq_take] at hp ⊢
    rwa [List.take_append_of_le_length h] at hp
  · intro hp
    exact hp.trans (List.prefix_append l₁ l₂)

lemma classify_node_create (a b c d : List Char) :
    classifySql (node_create a b c d) = StepKind.createNode := by
  unfold classifySql node_create
  simp only [List.append_assoc]
  rw [isPrefixOf_append_left _ _ _ (by decide)]
  simp

lemma classify_sub_create (s p : List Char) (x y z : Bool) :
    classifySql (sub_create s p x y z) = StepKind.createSub := by
  unfold classifySql sub_create
  simp only [List.append_assoc]
  rw [isPrefixOf_append_left _ _ _ (by decide), isPrefixOf_append_left _ _ _ (by decide)]
  simp

lemma classify_repset_create (s : List Char) :
    classifySql (repset_create s) = StepKind.createRepset := by
  unfold classifySql repset_create
  simp only [List.append_assoc]
  rw [isPrefixOf_append_left _ _ _ (by decide), isPrefixOf_append_left _ _ _ (by decide),
    isPrefixOf_append_left _ _ _ (by decide)]
  simp

lemma mem_insertByLen {x p : Nat × List Char} :
    ∀ {l : List (Nat × List Char)}, x ∈ insertByLen p l → x = p ∨ x ∈ l := by
  intro l
  induction l with
  | nil => intro h; simpa [insertByLen] using h
  | cons q rest ih =>
    intro h
    by_cases hc : keyLen q.1 ≤ keyLen p.1
    · rw [insertByLen, if_pos hc] at h
      rcases List.mem_cons.mp h with h1 | h2
      · exact Or.inl h1
      · exact Or.inr h2
    · rw [insertByLen, if_neg hc] at h
      rcases List.mem_cons.mp h with h1 | h2
      · exact Or.inr (h1 ▸ List.mem_cons_self q rest)
      · rcases ih h2 with h3 | h4
        · exact Or.inl h3
        · exact Or.inr (List.mem_cons_of_mem q h4)

lemma pairwise_insertByLen {p : Nat × List Char} :
    ∀ {l : List (Nat × List Char)},
      List.Pairwise (fun a b => keyLen b.1 ≤ keyLen a.1) l →
      List.Pairwise (fun a b => keyLen b.1 ≤ keyLen a.1) (insertByLen p l) := by
  intro l
  induction l with
  | nil => intro _; simp [insertByLen]
  | cons q rest ih =>
    intro h
    rcases List.pairwise_cons.mp h with ⟨hq, hrest⟩
    by_cases hc : keyLen q.1 ≤ keyLen p.1
    · rw [insertByLen, if_pos hc]
      refine List.pairwise_cons.mpr ⟨?_, h⟩
      intro b hb
      rcases List.mem_cons.mp hb with h1 | h2
      · exact h1 ▸ hc
      · exact le_trans (hq b h2) hc
    · rw [insertByLen, if_neg hc]
      refine List.pairwise_cons.mpr ⟨?_, ih hrest⟩
      intro b hb
      rcases mem_insertByLen hb with h1 | h2
      · exact h1 ▸ le_of_lt (lt_of_not_le hc)
      · exact hq b h2

lemma pairwise_sortByLenDesc :
    ∀ (l : List (Nat × List Char)),
      List.Pairwise (fun a b => keyLen b.1 ≤ keyLen a.1) (sortByLenDesc l) := by
  intro l
  induction l with
  | nil => simp [sortByLenDesc]
  | cons p rest ih =>
    rw [sortByLenDesc]
    exact pairwise_insertByLen ih

/-- C2: placeholder substitution processes captured outputs in descending
order of the decimal length of their keys (longest references first), so a
multi-digit reference is never corrupted by a shorter one: with outputs
1 = abc and 12 = xyz, a command containing both references gets xyz
wherever the step-12 reference appeared and never a mangled abc2. -/
theorem c2_substitution_longest_reference_first :
    (∀ outs : List (Nat × List Char),
      List.Pairwise (fun a b => keyLen b.1 ≤ keyLen a.1) (sortByLenDesc outs)) ∧
    sortByLenDesc [(1, "abc".data), (12, "xyz".data)]
      = [(12, "xyz".data), (1, "abc".data)] ∧
    subst [(1, "abc".data), (12, "xyz".data)]
        "UPDATE $12 SET a = $1 WHERE b = $12".data
      = "UPDATE xyz SET a = abc WHERE b = xyz".data :=
  ⟨pairwise_sortByLenDesc, by decide, by decide⟩

/-- C3: the captured value of a successful step is the last non-empty
stripped stdout line that is neither a row-count footer (starting with a
parenthesis) nor an echo of the invoked function name, single-quoted when
it contains a slash: a data line 0/1A2B3C4D followed by a (1 row) footer
captures as the quoted WAL position, and a data line t captures verbatim. -/
theorem c3_captured_value_extraction :
    extractValue " wal_lsn \n------------\n 0/1A2B3C4D\n(1 row)\n".data
      = sqc :: "0/1A2B3C4D".data ++ [sqc] ∧
    extractValue " ok \n----\n t\n(1 row)\n".data = "t".data :=
  ⟨by decide, by decide⟩

/-- C6: in the add-node workflow built against the repository's default two
existing endpoints, the wait-for-apply-worker step (position 4) references
the captured value of step 2 - the first subscription-creation step - as
its placeholder argument, not that of step 3, the last subscription-creation
step; the placeholder is the hard-coded literal text dollar-two. -/
theorem c6_wait_step_references_first_not_last_subscription :
    (Zodan.add_node_workflow n3Node [n1Node, n2Node]).map List.length = some 9 ∧
    ((Zodan.add_node_workflow n3Node [n1Node, n2Node]).bind (fun l => l.get? 2)).map
        (fun s => s.description) = some "Create a subscription (sub_n3_n2)".data ∧
    ((Zodan.add_node_workflow n3Node [n1Node, n2Node]).bind (fun l => l.get? 3)).map
        (fun s => s.sql) = some "SELECT spock.wait_for_apply_worker($2, 1000);".data ∧
    containsSub (placeholder 2) "SELECT spock.wait_for_apply_worker($2, 1000);".data = true ∧
    containsSub (placeholder 3) "SELECT spock.wait_for_apply_worker($2, 1000);".data = false :=
  ⟨by decide, by decide, by decide, by decide, by decide⟩

/-- C8 counterexample: with an empty endpoint set, cross-wire workflow
construction does not fail: it succeeds, returns an empty workflow, and
running it dispatches nothing; no BuildError exists in the code. -/
theorem c8_counterexample_empty_endpoints_accepted :
    CrossNodes.cross_node_workflow [] = [] ∧
    (CrossNodes.execute_steps dFail (CrossNodes.cross_node_workflow [])).calls = [] :=
  ⟨rfl, rfl⟩

/-- C8 amended: workflow construction performs no validation and has no
BuildError: the cross-wire builder accepts an empty endpoint set and
returns an empty workflow, while the add-node builder crashes with an index
error (modelled by none), before any dispatch, exactly when fewer than two
existing endpoints are supplied, and succeeds on the default topology. -/
theorem c8_amended_no_validation_no_builderror :
    CrossNodes.cross_node_workflow [] = [] ∧
    (∀ (newNode : Node) (nodes : List Node), nodes.length < 2 →
      Zodan.add_node_workflow newNode nodes = none) ∧
    (Zodan.add_node_workflow n3Node [n1Node, n2Node]).isSome = true := by
  refine ⟨rfl, ?_, by decide⟩
  intro newNode nodes h
  have hg : nodes[1]? = none := List.getElem?_eq_none (by omega)
  simp [Zodan.add_node_workflow, hg]

/-- C8 witness: the amended statement applied to a one-endpoint list. -/
theorem c8_amended_witness : Zodan.add_node_workflow n3Node [n1Node] = none :=
  c8_amended_no_validation_no_builderror.2.1 n3Node [n1Node] (by decide)

/-- C5 counterexample: the subscription phase of the cross-wire workflow on
the two default endpoints runs its first subscription step against the
first endpoint (subscriber-major order), whereas the provider-major
enumeration asserted by the claim would run it against the second endpoint;
the two connection sequences differ. -/
theorem c5_counterexample_not_provider_major :
    (((CrossNodes.cross_node_workflow [n1Node, n2Node]).drop 2).take 2).map
        (fun s => s.connInfo) = [n1Node.dsn, n2Node.dsn] ∧
    (CrossNodes.providerMajorPairs [n1Node, n2Node]).map (fun p => p.2.dsn)
      = [n2Node.dsn, n1Node.dsn] ∧
    ([n1Node.dsn, n2Node.dsn] : List (List Char)) ≠ [n2Node.dsn, n1Node.dsn] :=
  ⟨by decide, by decide, by decide⟩

/-- C1 counterexample: the cross-wire executor does not abort on a failing
step (none of its steps is marked ignorable): with a dispatcher failing
every call, both steps of a two-step workflow are dispatched and logged
FAILED, and the run returns normally instead of stopping after step 1. -/
theorem c1_counterexample_cross_executor_continues :
    (CrossNodes.execute_steps dFail [crossStep1, crossStep2]).calls.length = 2 ∧
    (CrossNodes.execute_steps dFail [crossStep1, crossStep2]).logs
      = [⟨1, "one".data, Status.failed, "n1".data⟩,
         ⟨2, "two".data, Status.failed, "n2".data⟩] :=
  ⟨by decide, by decide⟩

namespace Zodan

lemma execute_steps_from_nil (d : Dispatcher) (i : Nat) (acc : RunTrace) :
    execute_steps_from d i acc [] = acc := rfl

lemma execute_steps_eq (d : Dispatcher) (steps : List Step) :
    execute_steps d steps = execute_steps_from d 1 ⟨[], [], [], none⟩ steps := rfl

lemma execute_steps_from_cons (d : Dispatcher) (i : Nat) (acc : RunTrace)
    (st : Step) (rest : List Step) :
    execute_steps_from d i acc (st :: rest) =
      if (d (subst acc.outputs st.sql) st.connInfo).rc = 0 then
        execute_steps_from d (i + 1)
          ⟨acc.calls ++ [(subst acc.outputs st.sql, st.connInfo)],
           acc.outputs ++ [(i, extractValue (d (subst acc.outputs st.sql) st.connInfo).out)],
           acc.logs ++ [(⟨i, st.description, Status.ok, st.nodeName⟩ : LogEntry)],
           acc.exitMsg⟩ rest
      else if st.ignoreError then
        execute_steps_from d (i + 1)
          ⟨acc.calls ++ [(subst acc.outputs st.sql, st.connInfo)],
           acc.outputs ++ [(i, [])],
           acc.logs ++ [(⟨i, st.description, Status.ignored, st.nodeName⟩ : LogEntry)],
           acc.exitMsg⟩ rest
      else
        ⟨acc.calls ++ [(subst acc.outputs st.sql, st.connInfo)],
         acc.outputs,
         acc.logs ++ [⟨i, st.description, Status.failed, st.nodeName⟩],
         some (failMessage st.description)⟩ := rfl

lemma execute_steps_from_append (d : Dispatcher) :
    ∀ (pre post : List Step) (i : Nat) (acc : RunTrace), acc.exitMsg = none →
    execute_steps_from d i acc (pre ++ post) =
      if (execute_steps_from d i acc pre).exitMsg = none
      then execute_steps_from d (i + pre.length) (execute_steps_from d i acc pre) post
      else execute_steps_from d i acc pre := by
  intro pre
  induction pre with
  | nil =>
    intro post i acc h
    simp [execute_steps_from_nil, h]
  | cons st pre' ih =>
    intro post i acc h
    rw [List.cons_append, execute_steps_from_cons d i acc st (pre' ++ post),
      execute_steps_from_cons d i acc st pre']
    by_cases h1 : (d (subst acc.outputs st.sql) st.connInfo).rc = 0
    · rw [if_pos h1, if_pos h1,
        ih post (i + 1)
          ⟨acc.calls ++ [(subst acc.outputs st.sql, st.connInfo)],
           acc.outputs ++ [(i, extractValue (d (subst acc.outputs st.sql) st.connInfo).out)],
           acc.logs ++ [(⟨i, st.description, Status.ok, st.nodeName⟩ : LogEntry)],
           acc.exitMsg⟩ h]
      have h3 : i + 1 + pre'.length = i + (st :: pre').length := by
        simp; omega
      rw [h3]
    · rw [if_neg h1, if_neg h1]
      by_cases h2 : st.ignoreError
      · rw [if_pos h2, if_pos h2,
          ih post (i + 1)
            ⟨acc.calls ++ [(subst acc.outputs st.sql, st.connInfo)],
             acc.outputs ++ [(i, [])],
             acc.logs ++ [(⟨i, st.description, Status.ignored, st.nodeName⟩ : LogEntry)],
             acc.exitMsg⟩ h]
        have h3 : i + 1 + pre'.length = i + (st :: pre').length := by
          simp; omega
        rw [h3]
      · rw [if_neg h2, if_neg h2]
        simp

lemma execute_steps_from_complete (d : Dispatcher) :
    ∀ (steps : List Step) (i : Nat) (acc : RunTrace), acc.exitMsg = none →
    (execute_steps_from d i acc steps).exitMsg = none →
    (execute_steps_from d i acc steps).calls.length = acc.calls.length + steps.length ∧
    (execute_steps_from d i acc steps).outputs.map Prod.fst
      = acc.outputs.map Prod.fst ++ List.range' i steps.length ∧
    (execute_steps_from d i acc steps).logs.length = acc.logs.length + steps.length := by
  intro steps
  induction steps with
  | nil =>
    intro i acc h h2
    simp [execute_steps_from_nil]
  | cons st rest ih =>
    intro i acc h h2
    rw [execute_steps_from_cons] at h2 ⊢
    by_cases h1 : (d (subst acc.outputs st.sql) st.connInfo).rc = 0
    · rw [if_pos h1] at h2 ⊢
      obtain ⟨hc, ho, hl⟩ := ih (i + 1)
        ⟨acc.calls ++ [(subst acc.outputs st.sql, st.connInfo)],
         acc.outputs ++ [(i, extractValue (d (subst acc.outputs st.sql) st.connInfo).out)],
         acc.logs ++ [(⟨i, st.description, Status.ok, st.nodeName⟩ : LogEntry)],
         acc.exitMsg⟩ h h2
      refine ⟨?_, ?_, ?_⟩
      · rw [hc]; simp; omega
      · rw [ho]; simp [List.range'_succ]
      · rw [hl]; simp; omega
    · rw [if_neg h1] at h2 ⊢
      by_cases hig : st.ignoreError
      · rw [if_pos hig] at h2 ⊢
        obtain ⟨hc, ho, hl⟩ := ih (i + 1)
          ⟨acc.calls ++ [(subst acc.outputs st.sql, st.connInfo)],
           acc.outputs ++ [(i, [])],
           acc.logs ++ [(⟨i, st.description, Status.ignored, st.nodeName⟩ : LogEntry)],
           acc.exitMsg⟩ h h2
        refine ⟨?_, ?_, ?_⟩
        · rw [hc]; simp; omega
        · rw [ho]; simp [List.range'_succ]
        · rw [hl]; simp; omega
      · rw [if_neg hig] at h2
        simp at h2

lemma execute_steps_from_prefix (d : Dispatcher) :
    ∀ (steps : List Step) (i : Nat) (acc : RunTrace),
    acc.calls <+: (execute_steps_from d i acc steps).calls ∧
    acc.outputs <+: (execute_steps_from d i acc steps).outputs ∧
    acc.logs <+: (execute_steps_from d i acc steps).logs := by
  intro steps
  induction steps with
  | nil =>
    intro i acc
    simp [execute_steps_from_nil]
  | cons st rest ih =>
    intro i acc
    rw [execute_steps_from_cons]
    by_cases h1 : (d (subst acc.outputs st.sql) st.connInfo).rc = 0
    · rw [if_pos h1]
      obtain ⟨hc, ho, hl⟩ := ih (i + 1)
        ⟨acc.calls ++ [(subst acc.outputs st.sql, st.connInfo)],
         acc.outputs ++ [(i, extractValue (d (subst acc.outputs st.sql) st.connInfo).out)],
         acc.logs ++ [(⟨i, st.description, Status.ok, st.nodeName⟩ : LogEntry)],
         acc.exitMsg⟩
      exact ⟨(List.prefix_append _ _).trans hc, (List.prefix_append _ _).trans ho,
        (List.prefix_append _ _).trans hl⟩
    · rw [if_neg h1]
      by_cases hig : st.ignoreError
      · rw [if_pos hig]
        obtain ⟨hc, ho, hl⟩ := ih (i + 1)
          ⟨acc.calls ++ [(subst acc.outputs st.sql, st.connInfo)],
           acc.outputs ++ [(i, [])],
           acc.logs ++ [(⟨i, st.description, Status.ignored, st.nodeName⟩ : LogEntry)],
           acc.exitMsg⟩
        exact ⟨(List.prefix_append _ _).trans hc, (List.prefix_append _ _).trans ho,
          (List.prefix_append _ _).trans hl⟩
      · rw [if_neg hig]
        exact ⟨List.prefix_append _ _, List.prefix_refl _, List.prefix_append _ _⟩

end Zodan

/-- C1 amended: for the add/remove-node executor (`zodan.execute_steps`), a
non-zero exit on a step not marked ignorable aborts the run immediately:
with all k-1 earlier steps completed, exactly k dispatches happen in total
(so no step beyond k is dispatched), the step is recorded in the log with
the FAILED outcome, and the run terminates with the `sys.exit` failure
message naming the failing step; the cross-wire executor, by contrast,
never aborts (see its counterexample). -/
theorem c1_amended_zodan_fatal_failure_aborts (d : Dispatcher)
    (pre : List Zodan.Step) (s : Zodan.Step) (post : List Zodan.Step)
    (h1 : (Zodan.execute_steps d pre).exitMsg = none)
    (h2 : s.ignoreError = false)
    (h3 : (d (subst (Zodan.execute_steps d pre).outputs s.sql) s.connInfo).rc ≠ 0) :
    (Zodan.execute_steps d (pre ++ s :: post)).calls.length = pre.length + 1 ∧
    (Zodan.execute_steps d (pre ++ s :: post)).exitMsg
      = some (Zodan.failMessage s.description) ∧
    (Zodan.execute_steps d (pre ++ s :: post)).logs.getLast?
      = some ⟨pre.length + 1, s.description, Status.failed, s.nodeName⟩ := by
  obtain ⟨hc, -, -⟩ := Zodan.execute_steps_from_complete d pre 1 ⟨[], [], [], none⟩ rfl h1
  simp only [← Zodan.execute_steps_eq] at hc
  have happ := Zodan.execute_steps_from_append d pre (s :: post) 1 ⟨[], [], [], none⟩ rfl
  simp only [← Zodan.execute_steps_eq] at happ
  rw [if_pos h1] at happ
  have hm : Zodan.execute_steps d (pre ++ s :: post)
      = Zodan.execute_steps_from d (1 + pre.length) (Zodan.execute_steps d pre) (s :: post) :=
    happ
  rw [hm, Zodan.execute_steps_from_cons, if_neg h3, if_neg (by simp [h2])]
  have hn : 1 + pre.length = pre.length + 1 := by omega
  refine ⟨?_, rfl, ?_⟩
  · simp at hc
    simp [hc]
  · rw [List.getLast?_concat, hn]

/-- C1 amended witness: a failing first step with one later step queued. -/
theorem c1_amended_zodan_witness :
    (Zodan.execute_steps dFail ([] ++ sampleStepA :: [sampleStepB])).calls.length = 1 ∧
    (Zodan.execute_steps dFail ([] ++ sampleStepA :: [sampleStepB])).exitMsg
      = some (Zodan.failMessage sampleStepA.description) ∧
    (Zodan.execute_steps dFail ([] ++ sampleStepA :: [sampleStepB])).logs.getLast?
      = some ⟨1, sampleStepA.description, Status.failed, sampleStepA.nodeName⟩ := by
  have := c1_amended_zodan_fatal_failure_aborts dFail [] sampleStepA [sampleStepB]
    rfl rfl (by decide)
  simpa using this

/-- C7: for the add/remove-node executor, a non-zero exit on a step marked
ignorable records the empty string as that step's captured value, logs the
step with the IGNORED outcome, and continues: the whole run equals the run
of the remaining steps from position k+1 on the extended trace. -/
theorem c7_ignorable_failure_continues (d : Dispatcher)
    (pre : List Zodan.Step) (s : Zodan.Step) (post : List Zodan.Step)
    (h1 : (Zodan.execute_steps d pre).exitMsg = none)
    (h2 : s.ignoreError = true)
    (h3 : (d (subst (Zodan.execute_steps d pre).outputs s.sql) s.connInfo).rc ≠ 0) :
    Zodan.execute_steps d (pre ++ s :: post)
      = Zodan.execute_steps_from d (pre.length + 2)
          ⟨(Zodan.execute_steps d pre).calls
              ++ [(subst (Zodan.execute_steps d pre).outputs s.sql, s.connInfo)],
           (Zodan.execute_steps d pre).outputs ++ [(pre.length + 1, [])],
           (Zodan.execute_steps d pre).logs
              ++ [⟨pre.length + 1, s.description, Status.ignored, s.nodeName⟩],
           none⟩ post ∧
    (Zodan.execute_steps d (pre ++ s :: post)).outputs.get? pre.length
      = some (pre.length + 1, []) := by
  obtain ⟨-, ho, -⟩ := Zodan.execute_steps_from_complete d pre 1 ⟨[], [], [], none⟩ rfl h1
  have hlen : (Zodan.execute_steps d pre).outputs.length = pre.length := by
    have := congrArg List.length ho
    simpa [Zodan.execute_steps] using this
  have happ := Zodan.execute_steps_from_append d pre (s :: post) 1 ⟨[], [], [], none⟩ rfl
  simp only [← Zodan.execute_steps_eq] at happ
  rw [if_pos h1] at happ
  have hm : Zodan.execute_steps d (pre ++ s :: post)
      = Zodan.execute_steps_from d (1 + pre.length) (Zodan.execute_steps d pre) (s :: post) :=
    happ
  have hn1 : 1 + pre.length = pre.length + 1 := by omega
  have hcons : Zodan.execute_steps d (pre ++ s :: post)
      = Zodan.execute_steps_from d (pre.length + 2)
          ⟨(Zodan.execute_steps d pre).calls
              ++ [(subst (Zodan.execute_steps d pre).outputs s.sql, s.connInfo)],
           (Zodan.execute_steps d pre).outputs ++ [(pre.length + 1, [])],
           (Zodan.execute_steps d pre).logs
              ++ [⟨pre.length + 1, s.description, Status.ignored, s.nodeName⟩],
           none⟩ post := by
    rw [hm, Zodan.execute_steps_from_cons, if_neg h3, if_pos (by simp [h2]), h1, hn1]
  refine ⟨hcons, ?_⟩
  rw [hcons]
  obtain ⟨-, hp, -⟩ := Zodan.execute_steps_from_prefix d post (pre.length + 2)
    ⟨(Zodan.execute_steps d pre).calls
        ++ [(subst (Zodan.execute_steps d pre).outputs s.sql, s.connInfo)],
     (Zodan.execute_steps d pre).outputs ++ [(pre.length + 1, [])],
     (Zodan.execute_steps d pre).logs
        ++ [⟨pre.length + 1, s.description, Status.ignored, s.nodeName⟩],
     none⟩
  obtain ⟨t, ht⟩ := hp
  rw [← ht]
  rw [List.get?_append (by simp [hlen])]
  rw [List.get?_append_right (by simp [hlen])]
  simp [hlen]

/-- C7 witness: an ignorable failing first step followed by one more step. -/
theorem c7_witness :
    Zodan.execute_steps dFail ([] ++ sampleStepI :: [sampleStepI])
      = Zodan.execute_steps_from dFail 2
          ⟨[(subst [] sampleStepI.sql, sampleStepI.connInfo)],
           [(1, [])],
           [⟨1, sampleStepI.description, Status.ignored, sampleStepI.nodeName⟩],
           none⟩ [sampleStepI] ∧
    (Zodan.execute_steps dFail ([] ++ sampleStepI :: [sampleStepI])).outputs.get? 0
      = some (1, []) := by
  have := c7_ignorable_failure_continues dFail [] sampleStepI [sampleStepI]
    rfl rfl (by decide)
  simpa using this

/-- C9: the `step_outputs` map is written exactly once per step, immediately
after the step completes, and never mutated (each write is an append in the
executor): after a run of n steps completing without a fatal abort, the key
sequence is exactly 1, ..., n in order. -/
theorem c9_outputs_keyed_one_to_n (d : Dispatcher) (steps : List Zodan.Step)
    (h : (Zodan.execute_steps d steps).exitMsg = none) :
    (Zodan.execute_steps d steps).outputs.map Prod.fst = List.range' 1 steps.length := by
  obtain ⟨-, ho, -⟩ := Zodan.execute_steps_from_complete d steps 1 ⟨[], [], [], none⟩ rfl h
  simpa [Zodan.execute_steps] using ho

/-- C9 witness: a completed two-step run has key sequence 1, 2. -/
theorem c9_witness :
    (Zodan.execute_steps dOk [sampleStepA, sampleStepB]).outputs.map Prod.fst
      = List.range' 1 2 := by
  have := c9_outputs_keyed_one_to_n dOk [sampleStepA, sampleStepB] (by decide)
  simpa using this

/-- C10: when a step succeeds but its stdout has no line that, once
stripped, is non-empty and free of the parenthesis / sub_create /
node_create prefixes, the captured value recorded for that step is the
empty string (extraction is a total function of the stdout text). -/
theorem c10_no_extractable_line_records_empty (d : Dispatcher)
    (pre : List Zodan.Step) (s : Zodan.Step) (post : List Zodan.Step)
    (h1 : (Zodan.execute_steps d pre).exitMsg = none)
    (h2 : (d (subst (Zodan.execute_steps d pre).outputs s.sql) s.connInfo).rc = 0)
    (h3 : ∀ l ∈ splitLines (pyStrip
        (d (subst (Zodan.execute_steps d pre).outputs s.sql) s.connInfo).out),
      lineKeeps (pyStrip l) = false) :
    (Zodan.execute_steps d (pre ++ s :: post)).outputs.get? pre.length
      = some (pre.length + 1, []) := by
  obtain ⟨-, ho, -⟩ := Zodan.execute_steps_from_complete d pre 1 ⟨[], [], [], none⟩ rfl h1
  have hlen : (Zodan.execute_steps d pre).outputs.length = pre.length := by
    have := congrArg List.length ho
    simpa [Zodan.execute_steps] using this
  have hval : extractValue
      (d (subst (Zodan.execute_steps d pre).outputs s.sql) s.connInfo).out = [] := by
    have hfind : (((splitLines (pyStrip
        (d (subst (Zodan.execute_steps d pre).outputs s.sql) s.connInfo).out)).map
          pyStrip).reverse).find? lineKeeps = none := by
      rw [List.find?_eq_none]
      intro x hx
      obtain ⟨l, hl, hlx⟩ := List.mem_map.mp (List.mem_reverse.mp hx)
      rw [← hlx]
      simp [h3 l hl]
    simp [extractValue, extractLine, hfind]
  have happ := Zodan.execute_steps_from_append d pre (s :: post) 1 ⟨[], [], [], none⟩ rfl
  simp only [← Zodan.execute_steps_eq] at happ
  rw [if_pos h1] at happ
  have hm : Zodan.execute_steps d (pre ++ s :: post)
      = Zodan.execute_steps_from d (1 + pre.length) (Zodan.execute_steps d pre) (s :: post) :=
    happ
  rw [hm, Zodan.execute_steps_from_cons, if_pos h2, hval, h1]
  obtain ⟨-, hp, -⟩ := Zodan.execute_steps_from_prefix d post (1 + pre.length + 1)
    ⟨(Zodan.execute_steps d pre).calls
        ++ [(subst (Zodan.execute_steps d pre).outputs s.sql, s.connInfo)],
     (Zodan.execute_steps d pre).outputs ++ [(1 + pre.length, [])],
     (Zodan.execute_steps d pre).logs
        ++ [⟨1 + pre.length, s.description, Status.ok, s.nodeName⟩],
     none⟩
  obtain ⟨t, ht⟩ := hp
  rw [← ht]
  rw [List.get?_append (by simp [hlen])]
  rw [List.get?_append_right (by simp [hlen])]
  simp [hlen]
  omega

/-- C10 witness: a succeeding step whose stdout holds only a function-name
echo and a row-count footer records the empty string. -/
theorem c10_witness :
    (Zodan.execute_steps dNoData ([] ++ sampleStepA :: [])).outputs.get? 0
      = some (1, []) := by
  have := c10_no_extractable_line_records_empty dNoData [] sampleStepA []
    rfl (by decide) (by decide)
  simpa using this

namespace CrossNodes

lemma forget_numberSteps (l : List PreStep) : (numberSteps l).map forget = l := by
  unfold numberSteps forget
  rw [List.map_map]
  have h : ((fun s : Step => (⟨s.description, s.sql, s.connInfo, s.nodeName⟩ : PreStep)) ∘
      fun p : Nat × PreStep =>
        (⟨p.2.description, p.2.sql, p.2.connInfo, p.2.nodeName, p.1 + 1⟩ : Step))
      = Prod.snd := by
    funext p
    rfl
  rw [h, List.enum_map_snd]

lemma numberSteps_map_proj {γ : Type} (f : PreStep → γ) (l : List PreStep) :
    (numberSteps l).map (fun s => f (forget s)) = l.map f := by
  rw [show (fun s => f (forget s)) = f ∘ forget from rfl, ← List.map_map, forget_numberSteps]

lemma mem_enum_lt {α : Type} {i : Nat} {a : α} {l : List α} (h : (i, a) ∈ l.enum) :
    i < l.length := by
  have h2 : (i, a) ∈ List.enumFrom 0 l := h
  obtain ⟨-, h3, -⟩ := List.mem_enumFrom h2
  omega

lemma filterMap_ite_length {α β : Type} (f : α → β) (i : Nat) :
    ∀ (xs : List α) (s : Nat),
    ((List.enumFrom s xs).filterMap fun jp =>
        if i ≠ jp.1 then some (f jp.2) else none).length
      = if s ≤ i ∧ i < s + xs.length then xs.length - 1 else xs.length := by
  intro xs
  induction xs with
  | nil =>
    intro s
    rw [if_neg (by simp only [List.length_nil]; omega)]
    simp
  | cons x xs ih =>
    intro s
    rw [List.enumFrom_cons]
    by_cases his : i = s
    · subst his
      rw [show (List.filterMap (fun jp => if i ≠ jp.1 then some (f jp.2) else none)
          ((i, x) :: List.enumFrom (i + 1) xs))
          = List.filterMap (fun jp => if i ≠ jp.1 then some (f jp.2) else none)
              (List.enumFrom (i + 1) xs) from by simp [List.filterMap_cons]]
      rw [ih (i + 1), if_neg (by omega),
        if_pos (show i ≤ i ∧ i < i + (x :: xs).length by
          simp only [List.length_cons]; omega)]
      simp
    · rw [show (List.filterMap (fun jp => if i ≠ jp.1 then some (f jp.2) else none)
          ((s, x) :: List.enumFrom (s + 1) xs))
          = f x :: List.filterMap (fun jp => if i ≠ jp.1 then some (f jp.2) else none)
              (List.enumFrom (s + 1) xs) from by simp [List.filterMap_cons, his]]
      rw [List.length_cons, ih (s + 1)]
      by_cases c1 : s + 1 ≤ i ∧ i < s + 1 + xs.length
      · rw [if_pos c1, if_pos (show s ≤ i ∧ i < s + (x :: xs).length by
          simp only [List.length_cons]; omega)]
        simp only [List.length_cons]
        omega
      · rw [if_neg c1, if_neg (show ¬ (s ≤ i ∧ i < s + (x :: xs).length) by
          simp only [List.length_cons]; omega)]
        simp

lemma subPhase_length (nodes : List Node) :
    (subPhase nodes).length = nodes.length * (nodes.length - 1) := by
  unfold subPhase
  rw [List.length_flatMap]
  have hmap : nodes.enum.map (List.length ∘ fun ip =>
      nodes.enum.filterMap fun jp =>
        if ip.1 ≠ jp.1 then some (subStep ip.2 jp.2) else none)
      = List.replicate nodes.length (nodes.length - 1) := by
    rw [List.eq_replicate_iff]
    refine ⟨by simp [List.enum_length], ?_⟩
    intro b hb
    obtain ⟨ip, hip, hb'⟩ := List.mem_map.mp hb
    obtain ⟨i, a⟩ := ip
    have hilt : i < nodes.length := mem_enum_lt hip
    have hcall := filterMap_ite_length (fun n => subStep a n) i nodes 0
    have hcond : 0 ≤ i ∧ i < 0 + nodes.length := by omega
    rw [← hb']
    show (List.filterMap (fun jp =>
      if i ≠ jp.1 then some (subStep a jp.2) else none) (List.enumFrom 0 nodes)).length
        = nodes.length - 1
    rw [hcall, if_pos hcond]
  rw [hmap]
  simp [List.sum_replicate, nsmul_eq_mul]

lemma filterMap_ite_eq_filter_map {α β : Type} (i : Nat) (h : Nat × α → β) :
    ∀ (l : List (Nat × α)),
    (l.filterMap fun jp => if i ≠ jp.1 then some (h jp) else none)
      = (l.filter fun jp => !(i == jp.1)).map h := by
  intro l
  induction l with
  | nil => simp
  | cons a l ih =>
    by_cases hia : i = a.1
    · rw [hia] at ih
      simpa [List.filterMap_cons, List.filter_cons, hia] using ih
    · simpa [List.filterMap_cons, List.filter_cons, hia] using ih

end CrossNodes

/-- C4: for every non-empty list of N endpoints, the cross-wire-all builder
produces exactly N node-creation steps, then exactly N times N-1
subscription-creation steps, then exactly N replication-set-creation
steps, in that phase order (each step's kind read off its SQL text). -/
theorem c4_cross_workflow_phase_counts (nodes : List Node) (hne : nodes ≠ []) :
    (CrossNodes.cross_node_workflow nodes).map (fun s => classifySql s.sql)
      = List.replicate nodes.length StepKind.createNode
        ++ List.replicate (nodes.length * (nodes.length - 1)) StepKind.createSub
        ++ List.replicate nodes.length StepKind.createRepset := by
  unfold CrossNodes.cross_node_workflow
  show (CrossNodes.numberSteps _).map
      (fun s => (fun p : CrossNodes.PreStep => classifySql p.sql) (CrossNodes.forget s)) = _
  rw [CrossNodes.numberSteps_map_proj (fun p : CrossNodes.PreStep => classifySql p.sql),
    List.map_append, List.map_append]
  congr 1
  · congr 1
    · rw [List.eq_replicate_iff]
      refine ⟨by simp [CrossNodes.createPhase], ?_⟩
      intro b hb
      obtain ⟨p, hp, hbp⟩ := List.mem_map.mp hb
      unfold CrossNodes.createPhase at hp
      obtain ⟨n, -, rfl⟩ := List.mem_map.mp hp
      rw [← hbp]
      exact classify_node_create n.name n.dsn n.location n.country
    · rw [List.eq_replicate_iff]
      refine ⟨by rw [List.length_map, CrossNodes.subPhase_length], ?_⟩
      intro b hb
      obtain ⟨p, hp, hbp⟩ := List.mem_map.mp hb
      unfold CrossNodes.subPhase at hp
      obtain ⟨ip, -, hin⟩ := List.mem_flatMap.mp hp
      obtain ⟨jp, -, hjp⟩ := List.mem_filterMap.mp hin
      by_cases hij : ip.1 ≠ jp.1
      · rw [if_pos hij] at hjp
        obtain rfl := Option.some.inj hjp
        rw [← hbp]
        exact classify_sub_create (CrossNodes.subName jp.2 ip.2) jp.2.dsn true true true
      · rw [if_neg hij] at hjp
        exact absurd hjp (by simp)
  · rw [List.eq_replicate_iff]
    refine ⟨by simp [CrossNodes.repsetPhase], ?_⟩
    intro b hb
    obtain ⟨p, hp, hbp⟩ := List.mem_map.mp hb
    unfold CrossNodes.repsetPhase at hp
    obtain ⟨n, -, rfl⟩ := List.mem_map.mp hp
    rw [← hbp]
    exact classify_repset_create (n.name ++ ['r'])

/-- C4 witness: the builder on the two default endpoints yields the phase
pattern node, node, sub, sub, repset, repset. -/
theorem c4_witness :
    [n1Node, n2Node] ≠ [] ∧
    (CrossNodes.cross_node_workflow [n1Node, n2Node]).map (fun s => classifySql s.sql)
      = List.replicate 2 StepKind.createNode ++ List.replicate 2 StepKind.createSub
        ++ List.replicate 2 StepKind.createRepset := by
  refine ⟨by decide, ?_⟩
  have := c4_cross_workflow_phase_counts [n1Node, n2Node] (by decide)
  simpa using this

/-- C5 amended: the subscription phase of the cross-wire workflow enumerates
the ordered pairs of distinct endpoints subscriber-major, provider-minor -
for each subscriber in input endpoint order, all providers in input
endpoint order, skipping the subscriber's own position, each step run
against the subscriber targeting the provider - and the node-creation and
replication-set phases follow input endpoint order. -/
theorem c5_amended_subscriber_major_order (nodes : List Node) :
    (((CrossNodes.cross_node_workflow nodes).drop nodes.length).take
        (nodes.length * (nodes.length - 1))).map (fun s => (s.connInfo, s.sql))
      = (CrossNodes.subscriberMajorPairs nodes).map
          (fun p => (p.2.dsn, sub_create (CrossNodes.subName p.1 p.2) p.1.dsn true true true)) ∧
    ((CrossNodes.cross_node_workflow nodes).take nodes.length).map (fun s => s.nodeName)
      = nodes.map (fun n => n.name) ∧
    ((CrossNodes.cross_node_workflow nodes).drop
        (nodes.length + nodes.length * (nodes.length - 1))).map (fun s => s.nodeName)
      = nodes.map (fun n => n.name) := by
  have hw : ∀ (γ : Type) (f : CrossNodes.PreStep → γ),
      (CrossNodes.cross_node_workflow nodes).map (fun s => f (CrossNodes.forget s))
        = (CrossNodes.createPhase nodes).map f ++ ((CrossNodes.subPhase nodes).map f
          ++ (CrossNodes.repsetPhase nodes).map f) := by
    intro γ f
    unfold CrossNodes.cross_node_workflow
    rw [CrossNodes.numberSteps_map_proj f, List.map_append, List.map_append,
      List.append_assoc]
  refine ⟨?_, ?_, ?_⟩
  · rw [List.map_take, List.map_drop]
    have h1 : (CrossNodes.cross_node_workflow nodes).map (fun s => (s.connInfo, s.sql))
        = (CrossNodes.createPhase nodes).map (fun p => (p.connInfo, p.sql))
          ++ ((CrossNodes.subPhase nodes).map (fun p => (p.connInfo, p.sql))
            ++ (CrossNodes.repsetPhase nodes).map (fun p => (p.connInfo, p.sql))) :=
      hw _ (fun p => (p.connInfo, p.sql))
    rw [h1,
      List.drop_left' (by rw [List.length_map]; simp [CrossNodes.createPhase]),
      List.take_left' (by rw [List.length_map, CrossNodes.subPhase_length])]
    unfold CrossNodes.subPhase CrossNodes.subscriberMajorPairs
    rw [List.map_flatMap, List.map_flatMap]
    refine congrArg _ (funext fun ip => ?_)
    rw [CrossNodes.filterMap_ite_eq_filter_map ip.1
        (fun jp => CrossNodes.subStep ip.2 jp.2), List.map_map, List.map_map]
    rfl
  · rw [List.map_take]
    have h2 : (CrossNodes.cross_node_workflow nodes).map (fun s => s.nodeName)
        = (CrossNodes.createPhase nodes).map (fun p => p.nodeName)
          ++ ((CrossNodes.subPhase nodes).map (fun p => p.nodeName)
            ++ (CrossNodes.repsetPhase nodes).map (fun p => p.nodeName)) :=
      hw _ (fun p => p.nodeName)
    rw [h2, List.take_left' (by rw [List.length_map]; simp [CrossNodes.createPhase])]
    unfold CrossNodes.createPhase
    rw [List.map_map]
    rfl
  · rw [List.map_drop]
    have h3 : (CrossNodes.cross_node_workflow nodes).map (fun s => s.nodeName)
        = ((CrossNodes.createPhase nodes).map (fun p => p.nodeName)
            ++ (CrossNodes.subPhase nodes).map (fun p => p.nodeName))
          ++ (CrossNodes.repsetPhase nodes).map (fun p => p.nodeName) := by
      rw [List.append_assoc]
      exact hw _ (fun p => p.nodeName)
    rw [h3, List.drop_left' (by
      rw [List.length_append, List.length_map, List.length_map,
        CrossNodes.subPhase_length]
      simp [CrossNodes.createPhase])]
    unfold CrossNodes.repsetPhase
    rw [List.map_map]
    rfl
